import Mathlib

/-!
Shallow embedding of the yacht-dice game server core:
the `GameManager` (server game coordinator) together with the in-memory
`MemStorage` repository it calls into (`src/server/storage.ts`).
Pure data is translated field by field; the `async` repository calls are
sequenced by explicit state passing; `GameState | undefined` returns become
`Option GameState`.  Randomness (the external dice roller and the local
`Math.random` fallback) is passed in as explicit parameters.  Timers,
websocket broadcast, logging and the write-only per-turn round history are
I/O and are not modelled; no claim observes them.
-/

/-- The 13 scoring categories (`ScoreCategory` in `shared/types.ts`). -/
inductive ScoreCategory
  | ones | twos | threes | fours | fives | sixes
  | threeOfAKind | fourOfAKind | fullHouse
  | smallStraight | largeStraight | yacht | chance
deriving DecidableEq

/-- The `Object.values(ScoreCategory)`: the 13 categories in declaration order. -/
def ScoreCategory.all : List ScoreCategory :=
  [.ones, .twos, .threes, .fours, .fives, .sixes,
   .threeOfAKind, .fourOfAKind, .fullHouse,
   .smallStraight, .largeStraight, .yacht, .chance]

/-- A persisted score card row (`scoreCards` table in `shared/schema.ts`):
13 nullable integer columns, one per category. -/
structure ScoreCard where
  id : Nat
  playerId : Nat
  gameId : Nat
  ones : Option Int
  twos : Option Int
  threes : Option Int
  fours : Option Int
  fives : Option Int
  sixes : Option Int
  threeOfAKind : Option Int
  fourOfAKind : Option Int
  fullHouse : Option Int
  smallStraight : Option Int
  largeStraight : Option Int
  yacht : Option Int
  chance : Option Int
deriving DecidableEq

/-- Read the column of a score card named by a category
(TS property access `scoreCard[category]`). -/
def ScoreCard.get (sc : ScoreCard) : ScoreCategory → Option Int
  | .ones => sc.ones
  | .twos => sc.twos
  | .threes => sc.threes
  | .fours => sc.fours
  | .fives => sc.fives
  | .sixes => sc.sixes
  | .threeOfAKind => sc.threeOfAKind
  | .fourOfAKind => sc.fourOfAKind
  | .fullHouse => sc.fullHouse
  | .smallStraight => sc.smallStraight
  | .largeStraight => sc.largeStraight
  | .yacht => sc.yacht
  | .chance => sc.chance

/-- The `{ ...scoreCard, [category]: score }`: overwrite one column. -/
def ScoreCard.put (sc : ScoreCard) (c : ScoreCategory) (v : Int) : ScoreCard :=
  match c with
  | .ones => { sc with ones := some v }
  | .twos => { sc with twos := some v }
  | .threes => { sc with threes := some v }
  | .fours => { sc with fours := some v }
  | .fives => { sc with fives := some v }
  | .sixes => { sc with sixes := some v }
  | .threeOfAKind => { sc with threeOfAKind := some v }
  | .fourOfAKind => { sc with fourOfAKind := some v }
  | .fullHouse => { sc with fullHouse := some v }
  | .smallStraight => { sc with smallStraight := some v }
  | .largeStraight => { sc with largeStraight := some v }
  | .yacht => { sc with yacht := some v }
  | .chance => { sc with chance := some v }

/-- A freshly created score card (`createScoreCard`): all 13 columns null. -/
def emptyScoreCard (id pid gid : Nat) : ScoreCard :=
  ⟨id, pid, gid, none, none, none, none, none, none, none,
   none, none, none, none, none, none⟩

/-- Game lifecycle status (`games.status` enum). -/
inductive GStatus
  | waiting | inProgress | completed
deriving DecidableEq

/-- A persisted game row (`games` table). -/
structure Game where
  id : Nat
  hostId : Nat
  status : GStatus
  currentPlayerId : Option Nat
  currentRound : Nat
  maxRounds : Nat
deriving DecidableEq

/-- A `Partial<Game>` update object as used at the `updateGame` call sites
(only these three fields are ever updated). -/
structure GameUpd where
  status : Option GStatus
  currentPlayerId : Option (Option Nat)
  currentRound : Option Nat
deriving DecidableEq

/-- The `{ ...game, ...updates }`. -/
def Game.merge (g : Game) (u : GameUpd) : Game :=
  { g with
    status := u.status.getD g.status
    currentPlayerId := u.currentPlayerId.getD g.currentPlayerId
    currentRound := u.currentRound.getD g.currentRound }

/-- A persisted player row (`players` table). -/
structure Player where
  id : Nat
  gameId : Nat
  userId : Nat
  score : Int
  turnOrder : Nat
  isReady : Bool
  disconnected : Bool
deriving DecidableEq

/-- A `Partial<Player>` update object as used at the `updatePlayer`
call sites. -/
structure PlayerUpd where
  score : Option Int
  isReady : Option Bool
  disconnected : Option Bool
deriving DecidableEq

/-- The `{ ...player, ...updates }`. -/
def Player.merge (p : Player) (u : PlayerUpd) : Player :=
  { p with
    score := u.score.getD p.score
    isReady := u.isReady.getD p.isReady
    disconnected := u.disconnected.getD p.disconnected }

/-- A persisted round row (`rounds` table).  In the verified `GameManager`
no code path ever inserts one (`createRound` is never called), so this
table stays empty; it is modelled because `scoreCategory` reads it. -/
structure Round where
  id : Nat
  gameId : Nat
  playerId : Nat
  roundNumber : Nat
  category : Option ScoreCategory
  score : Int
deriving DecidableEq

/-- The `MemStorage` (`src/server/storage.ts`): JS `Map`s iterated in insertion
order are modelled as lists kept in insertion order; `Map.set` on an
existing key replaces the entry in place, which `List.map` over the
matching id reproduces.  Users are represented by their ids (the only user
field the game logic reads is existence). -/
structure Storage where
  users : List Nat
  games : List Game
  players : List Player
  rounds : List Round
  scoreCards : List ScoreCard
  nextScoreCardId : Nat
deriving DecidableEq

/-- The `getGame(id)`. -/
def Storage.getGame (st : Storage) (id : Nat) : Option Game :=
  st.games.find? (fun g => g.id = id)

/-- The `updateGame(id, updates)`: merge into the stored row if present,
returning the new storage and the merged row (`undefined` if absent). -/
def Storage.updateGame (st : Storage) (id : Nat) (u : GameUpd) :
    Storage × Option Game :=
  match st.getGame id with
  | none => (st, none)
  | some g =>
    let g2 := g.merge u
    ({ st with games := st.games.map (fun x => if x.id = id then g2 else x) },
     some g2)

/-- The `getPlayer(id)`. -/
def Storage.getPlayer (st : Storage) (id : Nat) : Option Player :=
  st.players.find? (fun p => p.id = id)

/-- The `getPlayersByGameId(gameId)` (insertion order preserved). -/
def Storage.playersOf (st : Storage) (gid : Nat) : List Player :=
  st.players.filter (fun p => p.gameId = gid)

/-- The `updatePlayer(id, updates)`. -/
def Storage.updatePlayer (st : Storage) (id : Nat) (u : PlayerUpd) :
    Storage × Option Player :=
  match st.getPlayer id with
  | none => (st, none)
  | some p =>
    let p2 := p.merge u
    ({ st with players := st.players.map (fun x => if x.id = id then p2 else x) },
     some p2)

/-- The `getRoundsByPlayerId(playerId)`. -/
def Storage.roundsOf (st : Storage) (pid : Nat) : List Round :=
  st.rounds.filter (fun r => r.playerId = pid)

/-- The `updateRound(id, { category, score })`. -/
def Storage.updateRound (st : Storage) (id : Nat) (c : ScoreCategory)
    (v : Int) : Storage :=
  { st with
    rounds := st.rounds.map (fun r =>
      if r.id = id then { r with category := some c, score := v } else r) }

/-- The `createScoreCard({ playerId, gameId })`: append a fresh empty card
(crucially it does NOT remove any earlier card of the same player). -/
def Storage.createScoreCard (st : Storage) (pid gid : Nat) : Storage :=
  { st with
    scoreCards := st.scoreCards ++ [emptyScoreCard st.nextScoreCardId pid gid]
    nextScoreCardId := st.nextScoreCardId + 1 }

/-- The `getScoreCardByPlayerId(playerId)`: the FIRST card in insertion order
whose `playerId` matches (`Array.from(map.values()).find(...)`). -/
def Storage.cardOf (st : Storage) (pid : Nat) : Option ScoreCard :=
  st.scoreCards.find? (fun sc => sc.playerId = pid)

/-- The `updateScoreCard(playerId, category, score)`: look up the first card of
that player, then overwrite that card's column in place. -/
def Storage.putScore (st : Storage) (pid : Nat) (c : ScoreCategory)
    (v : Int) : Storage × Option ScoreCard :=
  match st.cardOf pid with
  | none => (st, none)
  | some sc =>
    let sc2 := sc.put c v
    ({ st with
       scoreCards := st.scoreCards.map (fun x => if x.id = sc.id then sc2 else x) },
     some sc2)

/-- JS `x || undefined` applied to a nullable number: `null`, `undefined`
and the falsy number `0` all collapse to `undefined`. -/
def orUndef (v : Option Int) : Option Int :=
  match v with
  | none => none
  | some x => if x = 0 then none else some x

/-- The `GameManager.formatScoreCard`: each column is exposed to the in-memory
state as `scoreCard.<col> || undefined`. -/
def formatScoreCard (sc : ScoreCard) : ScoreCategory → Option Int :=
  fun c => orUndef (sc.get c)

/-- In-memory `PlayerState` (`shared/types.ts`); `username` is presentation
data and not modelled. -/
structure PlayerState where
  id : Nat
  userId : Nat
  score : Int
  turnOrder : Nat
  isReady : Bool
  isHost : Bool
  isCurrentTurn : Bool
  disconnected : Bool
  scoreCard : ScoreCategory → Option Int

/-- In-memory `GameState` (`shared/types.ts`).  `currentPlayerId` is a plain
number because `initializeGameState` coerces `null` with `|| 0`. -/
structure GameState where
  id : Nat
  hostId : Nat
  status : GStatus
  currentPlayerId : Nat
  currentRound : Nat
  maxRounds : Nat
  players : List PlayerState
  currentDice : List Nat
  rollsLeft : Nat
  selectedDice : List Bool
  turnTimer : Nat

/-- One `PlayerState` entry built by `initializeGameState`'s loop body
(with the `|| 0`, `|| 1`, `|| false` falsy coercions of the source). -/
def toPlayerState (st : Storage) (game : Game) (p : Player) : PlayerState :=
  { id := p.id
    userId := p.userId
    score := p.score
    turnOrder := if p.turnOrder = 0 then 1 else p.turnOrder
    isReady := p.isReady
    isHost := p.userId == game.hostId
    isCurrentTurn := game.currentPlayerId == some p.id
    disconnected := p.disconnected
    scoreCard :=
      match st.cardOf p.id with
      | some sc => formatScoreCard sc
      | none => fun _ => none }

/-- The `GameManager.initializeGameState` (pure part): rebuild the room's
in-memory state from storage.  Players whose user record is missing are
skipped (`if (!user) continue`); dice, rolls, holds and the timer reset to
their defaults. -/
def initGameState (st : Storage) (game : Game) : GameState :=
  { id := game.id
    hostId := game.hostId
    status := game.status
    currentPlayerId := game.currentPlayerId.getD 0
    currentRound := if game.currentRound = 0 then 1 else game.currentRound
    maxRounds := if game.maxRounds = 0 then 12 else game.maxRounds
    players :=
      ((st.playersOf game.id).filter (fun p => st.users.contains p.userId)).map
        (toPlayerState st game)
    currentDice := [1, 1, 1, 1, 1]
    rollsLeft := 3
    selectedDice := [false, false, false, false, false]
    turnTimer := 60 }

/-- The whole server state: the repository plus the `GameManager`'s
in-memory `games: Map<number, GameState>` (association list in insertion
order). -/
structure Sys where
  st : Storage
  rooms : List (Nat × GameState)

/-- The `this.games.get(gameId)`. -/
def Sys.getRoom (s : Sys) (gid : Nat) : Option GameState :=
  (s.rooms.find? (fun r => r.1 = gid)).map Prod.snd

/-- The `this.games.set(gameId, gs)`: replace in place, or append if new. -/
def setRoom (rooms : List (Nat × GameState)) (gid : Nat) (gs : GameState) :
    List (Nat × GameState) :=
  if (rooms.find? (fun r => r.1 = gid)).isSome then
    rooms.map (fun r => if r.1 = gid then (gid, gs) else r)
  else rooms ++ [(gid, gs)]

/-- The `initializeGameState` including its `this.games.set` side effect. -/
def Sys.initGS (s : Sys) (game : Game) : Sys × GameState :=
  let gs := initGameState s.st game
  ({ s with rooms := setRoom s.rooms game.id gs }, gs)

/-- Stable insertion of `a` into a list: before the first element `b`
with `le a b`.  Together with `sortBy` this models the stable
`Array.prototype.sort(comparator)` used by the manager; it is
structurally recursive so concrete runs evaluate. -/
def insertLe {α : Type} (le : α → α → Bool) (a : α) : List α → List α
  | [] => [a]
  | b :: l => if le a b then a :: b :: l else b :: insertLe le a l

/-- Stable sort by a boolean comparator (insertion sort). -/
def sortBy {α : Type} (le : α → α → Bool) : List α → List α
  | [] => []
  | a :: l => insertLe le a (sortBy le l)

/-- Occurrences of face `v` among the dice (`counts[v-1]` after the
counting loop of `calculateScore`). -/
def countFace (dice : List Nat) (v : Nat) : Nat :=
  (dice.filter (fun d => d = v)).length

/-- The `dice.reduce((sum, value) => sum + value, 0)`. -/
def diceSum (dice : List Nat) : Int :=
  dice.foldl (fun acc v => acc + (v : Int)) 0

/-- The `GameManager.calculateScore(dice, category)`.  The `counts` array is
read through `countFace`; JS truthiness of a count means the count is
nonzero. -/
def calculateScore (dice : List Nat) (category : ScoreCategory) : Int :=
  let counts : List Nat := (List.range 6).map (fun i => countFace dice (i + 1))
  match category with
  | .ones => (countFace dice 1 : Int) * 1
  | .twos => (countFace dice 2 : Int) * 2
  | .threes => (countFace dice 3 : Int) * 3
  | .fours => (countFace dice 4 : Int) * 4
  | .fives => (countFace dice 5 : Int) * 5
  | .sixes => (countFace dice 6 : Int) * 6
  | .threeOfAKind => if counts.any (fun c => 3 ≤ c) then diceSum dice else 0
  | .fourOfAKind => if counts.any (fun c => 4 ≤ c) then diceSum dice else 0
  | .fullHouse => if counts.contains 3 ∧ counts.contains 2 then 25 else 0
  | .smallStraight =>
    if (countFace dice 1 ≠ 0 ∧ countFace dice 2 ≠ 0 ∧
        countFace dice 3 ≠ 0 ∧ countFace dice 4 ≠ 0) ∨
       (countFace dice 2 ≠ 0 ∧ countFace dice 3 ≠ 0 ∧
        countFace dice 4 ≠ 0 ∧ countFace dice 5 ≠ 0) ∨
       (countFace dice 3 ≠ 0 ∧ countFace dice 4 ≠ 0 ∧
        countFace dice 5 ≠ 0 ∧ countFace dice 6 ≠ 0)
    then 30 else 0
  | .largeStraight =>
    if (countFace dice 1 ≠ 0 ∧ countFace dice 2 ≠ 0 ∧ countFace dice 3 ≠ 0 ∧
        countFace dice 4 ≠ 0 ∧ countFace dice 5 ≠ 0) ∨
       (countFace dice 2 ≠ 0 ∧ countFace dice 3 ≠ 0 ∧ countFace dice 4 ≠ 0 ∧
        countFace dice 5 ≠ 0 ∧ countFace dice 6 ≠ 0)
    then 40 else 0
  | .yacht => if counts.contains 5 then 50 else 0
  | .chance => diceSum dice

/-- The `GameManager.getNextPlayer`: sort the room's players by turn order
(JS `Array.sort` is stable; `sortBy` is the stable sort), find the
current position and return the next one, wrapping around. -/
def getNextPlayer (st : Storage) (gid : Nat) (currentTurnOrder : Nat) :
    Option Player :=
  let players := sortBy (fun a b => a.turnOrder ≤ b.turnOrder) (st.playersOf gid)
  match players.findIdx? (fun p => p.turnOrder = currentTurnOrder) with
  | none => none
  | some i => players[(i + 1) % players.length]?

/-- All 13 columns of a card are non-null (the inner category check list of
`checkGameCompletion`). -/
def allCatsFilled (sc : ScoreCard) : Bool :=
  ScoreCategory.all.all (fun c => (sc.get c).isSome)

/-- The `GameManager.checkGameCompletion`: complete when the round counter has
passed `maxRounds`, or else when every player's (first) score card is
fully filled; a player with no card is skipped. -/
def checkGameCompletion (st : Storage) (gid : Nat) : Bool :=
  match st.getGame gid with
  | none => false
  | some game =>
    let players := st.playersOf gid
    if players.isEmpty then false
    else
      let cur := if game.currentRound = 0 then 1 else game.currentRound
      let mx := if game.maxRounds = 0 then 12 else game.maxRounds
      if mx < cur then true
      else players.all (fun p =>
        match st.cardOf p.id with
        | none => true
        | some sc => allCatsFilled sc)

/-- The shared turn-advance block of `scoreCategory` / `passTurn`: set the
next player as current, and when the next player's turn order is 1
re-fetch the game and increment its round counter. -/
def advanceTurn (stIn : Storage) (gid : Nat) (turnOrder : Nat) : Storage :=
  match getNextPlayer stIn gid turnOrder with
  | none => stIn
  | some np =>
    let st1 := (stIn.updateGame gid ⟨none, some (some np.id), none⟩).1
    if np.turnOrder = 1 then
      match st1.getGame gid with
      | some g =>
        (st1.updateGame gid
          ⟨none, none, some ((if g.currentRound = 0 then 1 else g.currentRound) + 1)⟩).1
      | none => st1
    else st1

/-- The `GameManager.scoreCategory`.  Guards: room exists, caller is the
current player, the player is in the room state, the category is still
open in the player's displayed card.  Then: write the score to storage,
add it to the cumulative score, stamp the latest round record, check
completion, and either complete the game or advance the turn; finally
rebuild the room state from storage. -/
def scoreCategory (s : Sys) (gid pid : Nat) (category : ScoreCategory) :
    Sys × Option GameState :=
  match s.getRoom gid with
  | none => (s, none)
  | some gs =>
    if gs.currentPlayerId = pid then
      match gs.players.find? (fun p => p.id = pid) with
      | none => (s, none)
      | some player =>
        if (player.scoreCard category).isSome then (s, none)
        else
          let score := calculateScore gs.currentDice category
          let st1 := (s.st.putScore pid category score).1
          let upd := st1.updatePlayer pid ⟨some (player.score + score), none, none⟩
          match upd.2 with
          | none => ({ s with st := upd.1 }, none)
          | some _ =>
            let st3 :=
              match (sortBy (fun a b => b.id ≤ a.id) (upd.1.roundsOf pid)).head? with
              | some lastRound => upd.1.updateRound lastRound.id category score
              | none => upd.1
            if checkGameCompletion st3 gid then
              let st4 := (st3.updateGame gid ⟨some .completed, none, none⟩).1
              let s4 : Sys := { st := st4, rooms := s.rooms }
              match st4.getGame gid with
              | some game =>
                let r := s4.initGS game
                (r.1, some r.2)
              | none => (s4, none)
            else
              let st4 := advanceTurn st3 gid player.turnOrder
              let gsR := { gs with
                currentDice := [1, 1, 1, 1, 1]
                rollsLeft := 3
                selectedDice := [false, false, false, false, false]
                turnTimer := 60 }
              let s4 : Sys := { st := st4, rooms := setRoom s.rooms gid gsR }
              match st4.getGame gid with
              | some game =>
                let r := s4.initGS game
                (r.1, some r.2)
              | none => (s4, none)
    else (s, none)

/-- The `GameManager.passTurn`: same advance/reset logic as `scoreCategory`'s
non-completing branch, without writing any score. -/
def passTurn (s : Sys) (gid pid : Nat) : Sys × Option GameState :=
  match s.getRoom gid with
  | none => (s, none)
  | some gs =>
    if gs.currentPlayerId = pid then
      match gs.players.find? (fun p => p.id = pid) with
      | none => (s, none)
      | some player =>
        let st4 := advanceTurn s.st gid player.turnOrder
        let gsR := { gs with
          currentDice := [1, 1, 1, 1, 1]
          rollsLeft := 3
          selectedDice := [false, false, false, false, false]
          turnTimer := 60 }
        let s4 : Sys := { st := st4, rooms := setRoom s.rooms gid gsR }
        match st4.getGame gid with
        | some game =>
          let r := s4.initGS game
          (r.1, some r.2)
        | none => (s4, none)
    else (s, none)

/-- Outcome of the external dice roller: `failed` is any thrown error or
invalid top-level structure (handled by the catch-branch full local
fallback); `ok rs` carries the per-die entries, `none` standing for a
missing entry or a non-numeric value. -/
inductive RollerResult
  | failed
  | ok (rolls : List (Option Int))

/-- One die value extracted from a structurally valid roller result: a
numeric value in 1..6 is used as is, anything else falls back to the local
draw `Math.floor(Math.random()*6)+1`, modelled by `rand i + 1`. -/
def newDie (rs : List (Option Int)) (rand : Nat → Fin 6) (i : Nat) : Nat :=
  match rs.getD i none with
  | some v => if 1 ≤ v ∧ v ≤ 6 then v.toNat else (rand i).val + 1
  | none => (rand i).val + 1

/-- The value rolled for die position `i` (try branch or catch branch). -/
def rollFive (roller : RollerResult) (rand : Nat → Fin 6) (i : Nat) : Nat :=
  match roller with
  | .failed => (rand i).val + 1
  | .ok rs => newDie rs rand i

/-- The `GameManager.rollDice`: rejected (no state change) unless the caller is
the current player with rolls left; otherwise every non-held position is
replaced by a freshly drawn face, the reroll allowance is decremented, the
hold mask cleared and the timer reset. -/
def rollDice (s : Sys) (gid pid : Nat) (selectedIndices : List Bool)
    (roller : RollerResult) (rand : Nat → Fin 6) : Sys × Option GameState :=
  match s.getRoom gid with
  | none => (s, none)
  | some gs =>
    if gs.currentPlayerId = pid ∧ 0 < gs.rollsLeft then
      let newDice := (List.range 5).foldl
        (fun d i =>
          if selectedIndices.getD i false then d
          else d.set i (rollFive roller rand i))
        gs.currentDice
      let gs2 := { gs with
        currentDice := newDice
        rollsLeft := gs.rollsLeft - 1
        selectedDice := [false, false, false, false, false]
        turnTimer := 60 }
      ({ s with rooms := setRoom s.rooms gid gs2 }, some gs2)
    else (s, none)

/-- The `GameManager.selectDice`: rejected unless the caller is the current
player; sets the hold mask to exactly the in-range supplied indices. -/
def selectDice (s : Sys) (gid pid : Nat) (diceIndices : List Int) :
    Sys × Option GameState :=
  match s.getRoom gid with
  | none => (s, none)
  | some gs =>
    if gs.currentPlayerId = pid then
      let sel := diceIndices.foldl
        (fun m idx => if 0 ≤ idx ∧ idx < 5 then m.set idx.toNat true else m)
        [false, false, false, false, false]
      let gs2 := { gs with selectedDice := sel }
      ({ s with rooms := setRoom s.rooms gid gs2 }, some gs2)
    else (s, none)

/-- The `GameManager.startGame` (single-player capable version): host check,
at-least-one-player check, then the lowest turn order becomes current and
the game goes `in_progress`; the room state is rebuilt from storage. -/
def startGame (s : Sys) (gid hostId : Nat) : Sys × Option GameState :=
  match s.st.getGame gid with
  | none => (s, none)
  | some game =>
    if game.hostId = hostId then
      let players := s.st.playersOf gid
      if players.isEmpty then (s, none)
      else
        match sortBy (fun a b => a.turnOrder ≤ b.turnOrder) players with
        | [] => (s, none)
        | firstPlayer :: _ =>
          let upd := s.st.updateGame gid
            ⟨some .inProgress, some (some firstPlayer.id), none⟩
          match upd.2 with
          | none => ({ s with st := upd.1 }, none)
          | some ug =>
            let r := Sys.initGS { st := upd.1, rooms := s.rooms } ug
            (r.1, some r.2)
    else (s, none)

/-- The `GameManager.restartGame`: host check; reset the game row to
`waiting`/no current player/round 1; for each player zero the score and
ready flag and append a NEW empty score card (the old card is left in
place); rebuild the room state. -/
def restartGame (s : Sys) (gid hostId : Nat) : Sys × Option GameState :=
  match s.st.getGame gid with
  | none => (s, none)
  | some game =>
    if game.hostId = hostId then
      let upd := s.st.updateGame gid ⟨some .waiting, some none, some 1⟩
      match upd.2 with
      | none => ({ s with st := upd.1 }, none)
      | some ug =>
        let st2 := (upd.1.playersOf gid).foldl
          (fun st p =>
            ((st.updatePlayer p.id ⟨some 0, some false, none⟩).1).createScoreCard
              p.id gid)
          upd.1
        let r := Sys.initGS { st := st2, rooms := s.rooms } ug
        (r.1, some r.2)
    else (s, none)

/-- Concrete three-player room used as the sequencer witness. -/
def seqPlayer (i t : Nat) : Player :=
  ⟨i, 7, 20 + i, 0, t, true, false⟩

/-- Concrete game row for the sequencer witness. -/
def seqGame : Game := ⟨7, 20, .inProgress, some 1, 4, 12⟩

/-- Concrete repository for the sequencer witness. -/
def seqStorage : Storage :=
  ⟨[21, 22, 23], [seqGame], [seqPlayer 1 1, seqPlayer 2 2, seqPlayer 3 3],
   [], [], 1⟩

/-! ### Concrete systems for witnesses, bug evaluations and counterexamples -/

/-- A one-player active room: game 1, host user 10, player 100 active. -/
def exGame : Game := ⟨1, 10, .inProgress, some 100, 1, 12⟩

/-- The lone player of the example room. -/
def exPlayer : Player := ⟨100, 1, 10, 0, 1, true, false⟩

/-- Repository of the example room (one empty score card). -/
def exStorage : Storage := ⟨[10], [exGame], [exPlayer], [], [emptyScoreCard 1 100 1], 2⟩

/-- In-memory example room state, after a roll left dice `[1,2,3,4,5]`. -/
def exRoom : GameState :=
  { initGameState exStorage exGame with currentDice := [1, 2, 3, 4, 5] }

/-- The example system. -/
def exSys : Sys := ⟨exStorage, [(1, exRoom)]⟩

/-- The game row of the C2 counterexample: the round counter has passed
`maxRounds` (reachable by passing turns), scorecard still empty. -/
def cexGame : Game := ⟨1, 10, .inProgress, some 100, 13, 12⟩

/-- Repository of the C2 counterexample. -/
def cexStorage : Storage :=
  ⟨[10], [cexGame], [exPlayer], [], [emptyScoreCard 1 100 1], 2⟩

/-- System of the C2 counterexample. -/
def cexSys : Sys :=
  ⟨cexStorage, [(1, { initGameState cexStorage cexGame with
    currentDice := [1, 2, 3, 4, 5] })]⟩

/-- Score card with two filled categories, for the restart counterexample. -/
def rstCard : ScoreCard :=
  ⟨1, 100, 1, some 3, none, none, none, none, none, none, none, none,
   none, none, some 50, none⟩

/-- A finished game row for the restart counterexample. -/
def rstGame : Game := ⟨1, 10, .completed, some 100, 13, 12⟩

/-- Its player, with accumulated score and ready flag set. -/
def rstPlayer : Player := ⟨100, 1, 10, 53, 1, true, false⟩

/-- Repository of the restart counterexample. -/
def rstStorage : Storage := ⟨[10], [rstGame], [rstPlayer], [], [rstCard], 2⟩

/-- System of the restart counterexample. -/
def rstSys : Sys := ⟨rstStorage, [(1, initGameState rstStorage rstGame)]⟩

/-- A waiting one-player game whose lone participant is not ready. -/
def stGame : Game := ⟨1, 10, .waiting, none, 1, 12⟩

/-- The lone, not-ready participant. -/
def stPlayer : Player := ⟨100, 1, 10, 0, 1, false, false⟩

/-- Repository of the start counterexample. -/
def stStorage : Storage := ⟨[10], [stGame], [stPlayer], [], [emptyScoreCard 1 100 1], 2⟩

/-- System of the start counterexample. -/
def stSys : Sys := ⟨stStorage, []⟩

/-! ### General list helpers -/

/-- A successful `find?` splits the list at the first hit. -/
theorem find?_split {α : Type} {p : α → Bool} {l : List α} {a : α}
    (h : l.find? p = some a) :
    ∃ l1 l2, l = l1 ++ a :: l2 ∧ ∀ x ∈ l1, p x = false := by
  induction l with
  | nil => simp [List.find?] at h
  | cons b t ih =>
    rw [List.find?_cons] at h
    rcases hb : p b with _ | _
    · rw [hb] at h
      obtain ⟨l1, l2, rfl, hl1⟩ := ih h
      exact ⟨b :: l1, l2, rfl, by
        intro x hx
        simp only [List.mem_cons] at hx
        rcases hx with rfl | hx
        · exact hb
        · exact hl1 x hx⟩
    · rw [hb] at h
      cases h
      exact ⟨[], t, rfl, by simp⟩

/-- A list of length five is a literal five-element list. -/
theorem length_five {α : Type} {l : List α} (h : l.length = 5) :
    ∃ a b c d e, l = [a, b, c, d, e] := by
  match l, h with
  | [a, b, c, d, e], _ => exact ⟨a, b, c, d, e, rfl⟩

/-- The `filter` keeps everything exactly when its length is preserved. -/
theorem filter_length_eq {α : Type} {p : α → Bool} {l : List α} :
    (l.filter p).length = l.length ↔ ∀ x ∈ l, p x = true := by
  constructor
  · intro h
    exact List.filter_eq_self.mp ((List.filter_sublist l).eq_of_length h)
  · intro h
    rw [List.filter_eq_self.mpr h]

/-- The `insertLe` produces a permutation of consing. -/
theorem insertLe_perm {α : Type} (le : α → α → Bool) (a : α) (l : List α) :
    (insertLe le a l).Perm (a :: l) := by
  induction l with
  | nil => exact List.Perm.refl _
  | cons b t ih =>
    unfold insertLe
    split
    · exact List.Perm.refl _
    · exact (List.Perm.cons b ih).trans (List.Perm.swap a b t)

/-- The `sortBy` permutes its input. -/
theorem sortBy_perm {α : Type} (le : α → α → Bool) (l : List α) :
    (sortBy le l).Perm l := by
  induction l with
  | nil => exact List.Perm.refl _
  | cons a t ih =>
    exact (insertLe_perm le a (sortBy le t)).trans (List.Perm.cons a ih)

/-- The `insertLe` keeps a list sorted (transitive, total comparator). -/
theorem insertLe_pairwise {α : Type} (le : α → α → Bool)
    (htrans : ∀ x y z, le x y = true → le y z = true → le x z = true)
    (htot : ∀ x y, (le x y || le y x) = true) (a : α) (l : List α)
    (hl : l.Pairwise (fun x y => le x y = true)) :
    (insertLe le a l).Pairwise (fun x y => le x y = true) := by
  induction l with
  | nil => simp [insertLe]
  | cons b t ih =>
    rcases List.pairwise_cons.mp hl with ⟨hb, ht⟩
    unfold insertLe
    split
    · rename_i hab
      refine List.pairwise_cons.mpr ⟨?_, hl⟩
      intro y hy
      rcases List.mem_cons.mp hy with rfl | hyt
      · exact hab
      · exact htrans a b y hab (hb y hyt)
    · rename_i hab
      have hba : le b a = true := by
        have h2 := htot a b
        rcases Bool.or_eq_true_iff.mp h2 with h3 | h3
        · exact absurd h3 hab
        · exact h3
      refine List.pairwise_cons.mpr ⟨?_, ih ht⟩
      intro y hy
      have hm : y = a ∨ y ∈ t := by
        have h4 := (insertLe_perm le a t).mem_iff.mp hy
        simpa using h4
      rcases hm with rfl | hyt
      · exact hba
      · exact hb y hyt

/-- The `sortBy` sorts (transitive, total comparator). -/
theorem sortBy_pairwise {α : Type} (le : α → α → Bool)
    (htrans : ∀ x y z, le x y = true → le y z = true → le x z = true)
    (htot : ∀ x y, (le x y || le y x) = true) (l : List α) :
    (sortBy le l).Pairwise (fun x y => le x y = true) := by
  induction l with
  | nil => simp [sortBy]
  | cons a t ih => exact insertLe_pairwise le htrans htot a (sortBy le t) ih

/-! ### The scoring engine (claim C4) -/

/-- Summing die faces never goes below the accumulator. -/
theorem foldl_add_nonneg (l : List Nat) (acc : Int) (h : 0 ≤ acc) :
    0 ≤ l.foldl (fun a v => a + (v : Int)) acc := by
  induction l generalizing acc with
  | nil => exact h
  | cons v t ih =>
    exact ih (acc + v) (by positivity)

/-- The face sum is non-negative. -/
theorem diceSum_nonneg (dice : List Nat) : 0 ≤ diceSum dice :=
  foldl_add_nonneg dice 0 le_rfl

/-- A face occurs iff its count is nonzero. -/
theorem countFace_ne_zero {dice : List Nat} {v : Nat} :
    countFace dice v ≠ 0 ↔ v ∈ dice := by
  unfold countFace
  constructor
  · intro h
    by_contra hv
    apply h
    rw [List.length_eq_zero]
    refine List.filter_eq_nil_iff.mpr (fun x hx => ?_)
    simp only [decide_eq_true_eq]
    rintro rfl
    exact hv hx
  · intro hv h
    rw [List.length_eq_zero] at h
    have := List.filter_eq_nil_iff.mp h v hv
    simp at this

/-- All faces equal `v` iff `v`'s count is the whole length. -/
theorem countFace_eq_length {dice : List Nat} {v : Nat} :
    countFace dice v = dice.length ↔ ∀ d ∈ dice, d = v := by
  unfold countFace
  rw [filter_length_eq]
  constructor
  · intro h d hd
    simpa using h d hd
  · intro h d hd
    simp [h d hd]

/-- Membership in the 6-entry `counts` array of `calculateScore`. -/
theorem counts_contains {dice : List Nat} {c : Nat} :
    ((List.range 6).map (fun i => countFace dice (i + 1))).contains c = true ↔
      ∃ v, 1 ≤ v ∧ v ≤ 6 ∧ countFace dice v = c := by
  rw [List.elem_iff]
  constructor
  · intro h
    obtain ⟨i, hi, hc⟩ := List.mem_map.mp h
    exact ⟨i + 1, by omega, by simp at hi; omega, hc⟩
  · rintro ⟨v, h1, h6, hc⟩
    refine List.mem_map.mpr ⟨v - 1, by simp; omega, ?_⟩
    have : v - 1 + 1 = v := by omega
    rw [this, hc]

/-- C4: for every five-die roll with faces in 1..6, `calculateScore` (a
pure function of its inputs, hence deterministic) is non-negative in every
category, scores full house 25 exactly when some face occurs three times
and a different face twice, and scores Yacht 50 exactly when all five
faces are equal. -/
theorem score_spec (dice : List Nat) (cat : ScoreCategory)
    (hlen : dice.length = 5) (hval : ∀ d ∈ dice, 1 ≤ d ∧ d ≤ 6) :
    0 ≤ calculateScore dice cat ∧
    (calculateScore dice .fullHouse = 25 ↔
      ∃ x y, x ≠ y ∧ countFace dice x = 3 ∧ countFace dice y = 2) ∧
    (calculateScore dice .yacht = 50 ↔ ∀ d1 ∈ dice, ∀ d2 ∈ dice, d1 = d2) := by
  refine ⟨?_, ?_, ?_⟩
  · cases cat <;> simp only [calculateScore] <;>
      first
        | positivity
        | exact diceSum_nonneg dice
        | (split <;> first | exact diceSum_nonneg dice | norm_num)
  · have key : calculateScore dice .fullHouse = 25 ↔
        (((List.range 6).map (fun i => countFace dice (i + 1))).contains 3 = true ∧
         ((List.range 6).map (fun i => countFace dice (i + 1))).contains 2 = true) := by
      simp only [calculateScore]
      split
      · rename_i h
        simpa using h
      · rename_i h
        constructor
        · intro h0
          norm_num at h0
        · intro hc
          exact absurd hc h
    rw [key, counts_contains, counts_contains]
    constructor
    · rintro ⟨⟨x, hx1, hx6, hcx⟩, ⟨y, hy1, hy6, hcy⟩⟩
      refine ⟨x, y, ?_, hcx, hcy⟩
      rintro rfl
      rw [hcx] at hcy
      norm_num at hcy
    · rintro ⟨x, y, hxy, hcx, hcy⟩
      have hxd : x ∈ dice := countFace_ne_zero.mp (by omega)
      have hyd : y ∈ dice := countFace_ne_zero.mp (by omega)
      exact ⟨⟨x, (hval x hxd).1, (hval x hxd).2, hcx⟩,
             ⟨y, (hval y hyd).1, (hval y hyd).2, hcy⟩⟩
  · have key : calculateScore dice .yacht = 50 ↔
        ((List.range 6).map (fun i => countFace dice (i + 1))).contains 5 = true := by
      simp only [calculateScore]
      split
      · rename_i h
        simpa using h
      · rename_i h
        constructor
        · intro h0
          norm_num at h0
        · intro hc
          exact absurd hc h
    rw [key, counts_contains]
    constructor
    · rintro ⟨v, hv1, hv6, hcv⟩ d1 hd1 d2 hd2
      have hall := countFace_eq_length.mp
        (show countFace dice v = dice.length by omega)
      rw [hall d1 hd1, hall d2 hd2]
    · intro hpairs
      have hne : dice ≠ [] := by
        intro hnil
        rw [hnil] at hlen
        simp at hlen
      obtain ⟨a, ha⟩ := List.exists_mem_of_ne_nil dice hne
      have hall : ∀ d ∈ dice, d = a := fun d hd => hpairs d hd a ha
      refine ⟨a, (hval a ha).1, (hval a ha).2, ?_⟩
      rw [countFace_eq_length.mpr hall, hlen]

/-- Witness for `score_spec` at the concrete roll `[2,2,3,3,3]`. -/
theorem score_spec_witness :
    0 ≤ calculateScore [2, 2, 3, 3, 3] ScoreCategory.fullHouse :=
  (score_spec [2, 2, 3, 3, 3] ScoreCategory.fullHouse (by decide) (by decide)).1

/-! ### Rejection of a non-active participant (claim C6) -/

/-- C6: each of the four mutating actions, invoked for a room by a
participant who is not the current player, returns the system completely
unchanged together with the `undefined` (`none`) rejection result. -/
theorem reject_foreign (sys : Sys) (gid pid : Nat) (gs : GameState)
    (hroom : sys.getRoom gid = some gs) (hturn : gs.currentPlayerId ≠ pid)
    (sel : List Bool) (roller : RollerResult) (rand : Nat → Fin 6)
    (idxs : List Int) (cat : ScoreCategory) :
    rollDice sys gid pid sel roller rand = (sys, none) ∧
    selectDice sys gid pid idxs = (sys, none) ∧
    scoreCategory sys gid pid cat = (sys, none) ∧
    passTurn sys gid pid = (sys, none) := by
  refine ⟨?_, ?_, ?_, ?_⟩
  · simp only [rollDice, hroom]
    rw [if_neg]
    rintro ⟨h1, _⟩
    exact hturn h1
  · simp only [selectDice, hroom]
    rw [if_neg hturn]
  · simp only [scoreCategory, hroom]
    rw [if_neg hturn]
  · simp only [passTurn, hroom]
    rw [if_neg hturn]

/-! ### Rolling dice (claims C5, C7) -/

/-- The `Map.set` followed by `Map.get` on the same key. -/
theorem find?_setRoom (rooms : List (Nat × GameState)) (gid : Nat)
    (gs : GameState) :
    ((setRoom rooms gid gs).find? (fun r => r.1 = gid)).map Prod.snd = some gs := by
  unfold setRoom
  rcases hf : rooms.find? (fun r => r.1 = gid) with _ | a
  · simp only [hf, Option.isSome_none, Bool.false_eq_true, if_neg, ite_false]
    rw [List.find?_append]
    have h1 : rooms.find? (fun r => r.1 = gid) = none := hf
    rw [h1]
    simp [List.find?]
  · simp only [hf, Option.isSome_some, ite_true]
    obtain ⟨l1, l2, rfl, hl1⟩ := find?_split hf
    rw [List.map_append, List.find?_append]
    have hnone : ((l1.map (fun r => if r.1 = gid then (gid, gs) else r)).find?
        (fun r => r.1 = gid)) = none := by
      rw [List.find?_eq_none]
      intro x hx
      obtain ⟨y, hy, rfl⟩ := List.mem_map.mp hx
      have hyf := hl1 y hy
      simp only [decide_eq_false_iff_not] at hyf
      simp [if_neg hyf, hyf]
    rw [hnone]
    have ha : a.1 = gid := by simpa using List.find?_some hf
    simp [ha]

/-- The room state a successful `rollDice` installs and returns. -/
theorem rollDice_succ (sys : Sys) (gid pid : Nat) (gs : GameState)
    (sel : List Bool) (roller : RollerResult) (rand : Nat → Fin 6)
    (hroom : sys.getRoom gid = some gs) (hturn : gs.currentPlayerId = pid)
    (hrolls : 0 < gs.rollsLeft) :
    rollDice sys gid pid sel roller rand =
      ({ sys with rooms := setRoom sys.rooms gid { gs with
          currentDice := (List.range 5).foldl
            (fun d i => if sel.getD i false then d
              else d.set i (rollFive roller rand i)) gs.currentDice
          rollsLeft := gs.rollsLeft - 1
          selectedDice := [false, false, false, false, false]
          turnTimer := 60 } },
       some { gs with
          currentDice := (List.range 5).foldl
            (fun d i => if sel.getD i false then d
              else d.set i (rollFive roller rand i)) gs.currentDice
          rollsLeft := gs.rollsLeft - 1
          selectedDice := [false, false, false, false, false]
          turnTimer := 60 }) := by
  simp only [rollDice, hroom]
  rw [if_pos ⟨hturn, hrolls⟩]

/-- The `rollDice` with no rolls left: rejected, system untouched. -/
theorem rollDice_noRolls (sys : Sys) (gid pid : Nat) (gs : GameState)
    (sel : List Bool) (roller : RollerResult) (rand : Nat → Fin 6)
    (hroom : sys.getRoom gid = some gs) (hrolls : gs.rollsLeft = 0) :
    rollDice sys gid pid sel roller rand = (sys, none) := by
  simp only [rollDice, hroom]
  rw [if_neg]
  rintro ⟨_, h⟩
  omega

/-- C5: from a fresh turn (3 rolls left) the active participant's three
consecutive rolls succeed with the allowance going 3→2→1→0, and a fourth
roll attempt is rejected leaving the whole system exactly as it was after
the third roll. -/
theorem reroll_allowance (sys : Sys) (gid pid : Nat) (gs : GameState)
    (hroom : sys.getRoom gid = some gs) (hturn : gs.currentPlayerId = pid)
    (hrolls : gs.rollsLeft = 3)
    (sel1 sel2 sel3 sel4 : List Bool) (ro1 ro2 ro3 ro4 : RollerResult)
    (ra1 ra2 ra3 ra4 : Nat → Fin 6) :
    ∃ s1 gs1 s2 gs2 s3 gs3,
      rollDice sys gid pid sel1 ro1 ra1 = (s1, some gs1) ∧ gs1.rollsLeft = 2 ∧
      rollDice s1 gid pid sel2 ro2 ra2 = (s2, some gs2) ∧ gs2.rollsLeft = 1 ∧
      rollDice s2 gid pid sel3 ro3 ra3 = (s3, some gs3) ∧ gs3.rollsLeft = 0 ∧
      rollDice s3 gid pid sel4 ro4 ra4 = (s3, none) := by
  have h1 := rollDice_succ sys gid pid gs sel1 ro1 ra1 hroom hturn (by omega)
  set gs1 : GameState := { gs with
    currentDice := (List.range 5).foldl
      (fun d i => if sel1.getD i false then d
        else d.set i (rollFive ro1 ra1 i)) gs.currentDice
    rollsLeft := gs.rollsLeft - 1
    selectedDice := [false, false, false, false, false]
    turnTimer := 60 } with hgs1
  set s1 : Sys := { sys with rooms := setRoom sys.rooms gid gs1 } with hs1
  have hroom1 : s1.getRoom gid = some gs1 := find?_setRoom sys.rooms gid gs1
  have h2 := rollDice_succ s1 gid pid gs1 sel2 ro2 ra2 hroom1 hturn (by simp [hgs1]; omega)
  set gs2 : GameState := { gs1 with
    currentDice := (List.range 5).foldl
      (fun d i => if sel2.getD i false then d
        else d.set i (rollFive ro2 ra2 i)) gs1.currentDice
    rollsLeft := gs1.rollsLeft - 1
    selectedDice := [false, false, false, false, false]
    turnTimer := 60 } with hgs2
  set s2 : Sys := { s1 with rooms := setRoom s1.rooms gid gs2 } with hs2
  have hroom2 : s2.getRoom gid = some gs2 := find?_setRoom s1.rooms gid gs2
  have h3 := rollDice_succ s2 gid pid gs2 sel3 ro3 ra3 hroom2 hturn
    (by simp [hgs2, hgs1]; omega)
  set gs3 : GameState := { gs2 with
    currentDice := (List.range 5).foldl
      (fun d i => if sel3.getD i false then d
        else d.set i (rollFive ro3 ra3 i)) gs2.currentDice
    rollsLeft := gs2.rollsLeft - 1
    selectedDice := [false, false, false, false, false]
    turnTimer := 60 } with hgs3
  set s3 : Sys := { s2 with rooms := setRoom s2.rooms gid gs3 } with hs3
  have hroom3 : s3.getRoom gid = some gs3 := find?_setRoom s2.rooms gid gs3
  have h4 := rollDice_noRolls s3 gid pid gs3 sel4 ro4 ra4 hroom3
    (by simp [hgs3, hgs2, hgs1]; omega)
  exact ⟨s1, gs1, s2, gs2, s3, gs3, h1, by simp [hgs1]; omega,
    h2, by simp [hgs2, hgs1]; omega, h3, by simp [hgs3, hgs2, hgs1]; omega, h4⟩

/-- The dice-update loop of `rollDice` on a five-die list, in closed form. -/
theorem rollUpdate (a b c d e : Nat) (sel : List Bool) (w : Nat → Nat) :
    (List.range 5).foldl
      (fun l i => if sel.getD i false then l else l.set i (w i)) [a, b, c, d, e] =
    [if sel.getD 0 false then a else w 0,
     if sel.getD 1 false then b else w 1,
     if sel.getD 2 false then c else w 2,
     if sel.getD 3 false then d else w 3,
     if sel.getD 4 false then e else w 4] := by
  have hr : List.range 5 = [0, 1, 2, 3, 4] := by decide
  rw [hr]
  simp only [List.foldl]
  split_ifs <;> rfl

/-- Every drawn die face is in 1..6, whether the external roller produced
a valid value, an invalid one, or failed altogether. -/
theorem rollFive_bounds (roller : RollerResult) (rand : Nat → Fin 6) (i : Nat) :
    1 ≤ rollFive roller rand i ∧ rollFive roller rand i ≤ 6 := by
  have hrand := (rand i).isLt
  cases roller with
  | failed =>
    simp only [rollFive]
    omega
  | ok rs =>
    simp only [rollFive, newDie]
    rcases h : rs.getD i none with _ | v
    · simp only [h]
      omega
    · simp only [h]
      split
      · rename_i hv
        omega
      · omega

/-- Any state `passTurn` hands back was rebuilt by `initGameState`. -/
theorem passTurn_some (sys : Sys) (gid pid : Nat) (s' : Sys) (gs' : GameState)
    (h : passTurn sys gid pid = (s', some gs')) :
    ∃ st g, gs' = initGameState st g := by
  simp only [passTurn, Sys.initGS] at h
  repeat' split at h
  all_goals
    first
    | (have h2 := congrArg Prod.snd h
       simp only [Option.some.injEq] at h2
       exact ⟨_, _, h2.symm⟩)
    | (have h2 := congrArg Prod.snd h
       simp at h2)

/-- Any state `scoreCategory` hands back was rebuilt by `initGameState`. -/
theorem scoreCategory_some (sys : Sys) (gid pid : Nat) (cat : ScoreCategory)
    (s' : Sys) (gs' : GameState)
    (h : scoreCategory sys gid pid cat = (s', some gs')) :
    ∃ st g, gs' = initGameState st g := by
  simp only [scoreCategory, Sys.initGS] at h
  repeat' split at h
  all_goals
    first
    | (have h2 := congrArg Prod.snd h
       simp only [Option.some.injEq] at h2
       exact ⟨_, _, h2.symm⟩)
    | (have h2 := congrArg Prod.snd h
       simp at h2)

/-- The hold-mask rebuild loop of `selectDice` preserves mask length. -/
theorem selMask_length (idxs : List Int) (m : List Bool) :
    (idxs.foldl
      (fun m idx => if 0 ≤ idx ∧ idx < 5 then m.set idx.toNat true else m)
      m).length = m.length := by
  induction idxs generalizing m with
  | nil => rfl
  | cons idx t ih =>
    simp only [List.foldl_cons]
    rw [ih]
    split <;> simp [List.length_set]

/-- C7: starting from a room whose five dice are all in 1..6, each of the
four turn actions keeps every die face in 1..6 and the hold mask of length
five; `rollDice` keeps every held position's previous face and fills every
other position with a face in 1..6, for EVERY roller outcome including a
failed or invalid external roller (local fallback). -/
theorem dice_invariants (sys : Sys) (gid pid : Nat) (gs : GameState)
    (hroom : sys.getRoom gid = some gs)
    (hlen : gs.currentDice.length = 5)
    (hval : ∀ d ∈ gs.currentDice, 1 ≤ d ∧ d ≤ 6) :
    (∀ sel roller rand s' gs',
      rollDice sys gid pid sel roller rand = (s', some gs') →
        gs'.currentDice.length = 5 ∧
        (∀ d ∈ gs'.currentDice, 1 ≤ d ∧ d ≤ 6) ∧
        gs'.selectedDice.length = 5 ∧
        (∀ i, i < 5 → sel.getD i false = true →
          gs'.currentDice.getD i 0 = gs.currentDice.getD i 0)) ∧
    (∀ idxs s' gs', selectDice sys gid pid idxs = (s', some gs') →
        gs'.currentDice = gs.currentDice ∧ gs'.selectedDice.length = 5) ∧
    (∀ cat s' gs', scoreCategory sys gid pid cat = (s', some gs') →
        gs'.currentDice = [1, 1, 1, 1, 1] ∧
        gs'.selectedDice = [false, false, false, false, false]) ∧
    (∀ s' gs', passTurn sys gid pid = (s', some gs') →
        gs'.currentDice = [1, 1, 1, 1, 1] ∧
        gs'.selectedDice = [false, false, false, false, false]) := by
  obtain ⟨a, b, c, d, e, hdice⟩ := length_five hlen
  refine ⟨?_, ?_, ?_, ?_⟩
  · intro sel roller rand s' gs' h
    simp only [rollDice, hroom] at h
    split at h
    · have h2 := congrArg Prod.snd h
      simp only [Option.some.injEq] at h2
      rw [← h2]
      rw [hdice, rollUpdate]
      refine ⟨rfl, ?_, rfl, ?_⟩
      · intro x hx
        simp only [List.mem_cons, List.not_mem_nil, or_false] at hx
        have hmem : ∀ y ∈ [a, b, c, d, e], 1 ≤ y ∧ y ≤ 6 := by
          rw [← hdice]
          exact hval
        rcases hx with rfl | rfl | rfl | rfl | rfl
        · split
          · exact hmem a (by simp)
          · exact rollFive_bounds roller rand 0
        · split
          · exact hmem b (by simp)
          · exact rollFive_bounds roller rand 1
        · split
          · exact hmem c (by simp)
          · exact rollFive_bounds roller rand 2
        · split
          · exact hmem d (by simp)
          · exact rollFive_bounds roller rand 3
        · split
          · exact hmem e (by simp)
          · exact rollFive_bounds roller rand 4
      · intro i hi hsel
        rw [List.getD_eq_getElem?_getD] at hsel
        interval_cases i <;> simp [List.getD, hsel]
    · have h2 := congrArg Prod.snd h
      simp at h2
  · intro idxs s' gs' h
    simp only [selectDice, hroom] at h
    split at h
    · have h2 := congrArg Prod.snd h
      simp only [Option.some.injEq] at h2
      rw [← h2]
      exact ⟨rfl, selMask_length idxs [false, false, false, false, false]⟩
    · have h2 := congrArg Prod.snd h
      simp at h2
  · intro cat s' gs' h
    obtain ⟨st', g', rfl⟩ := scoreCategory_some sys gid pid cat s' gs' h
    exact ⟨rfl, rfl⟩
  · intro s' gs' h
    obtain ⟨st', g', rfl⟩ := passTurn_some sys gid pid s' gs' h
    exact ⟨rfl, rfl⟩

/-! ### Selecting dice (claim C8) -/

/-- A position of the rebuilt hold mask is held exactly when it was held
before or its index occurs (in range) in the supplied index list. -/
theorem selMask_getD (idxs : List Int) (m : List Bool) (j : Nat)
    (hm : m.length = 5) (hj : j < 5) :
    ((idxs.foldl
        (fun m idx => if 0 ≤ idx ∧ idx < 5 then m.set idx.toNat true else m)
        m).getD j false = true) ↔
      (m.getD j false = true ∨ (j : Int) ∈ idxs) := by
  induction idxs generalizing m with
  | nil => simp
  | cons idx t ih =>
    simp only [List.foldl_cons]
    by_cases hidx : 0 ≤ idx ∧ idx < 5
    · rw [if_pos hidx]
      rw [ih (m.set idx.toNat true) (by simp [List.length_set, hm])]
      have hset : (m.set idx.toNat true).getD j false =
          if idx.toNat = j then true else m.getD j false := by
        rw [List.getD_eq_getElem?_getD, List.getElem?_set]
        split
        · rw [if_pos (by omega)]
          simp
        · rw [← List.getD_eq_getElem?_getD]
      rw [hset]
      have hiff : (idx.toNat = j) ↔ ((j : Int) = idx) := by omega
      constructor
      · rintro (h | h)
        · split at h
          · rename_i he
            exact Or.inr (by simp [hiff.mp he])
          · exact Or.inl h
        · exact Or.inr (by simp [h])
      · rintro (h | h)
        · exact Or.inl (by split <;> first | rfl | exact h)
        · simp only [List.mem_cons] at h
          rcases h with h | h
          · exact Or.inl (by rw [if_pos (hiff.mpr h)])
          · exact Or.inr h
    · rw [if_neg hidx]
      rw [ih m hm]
      have hne : ((j : Int) ≠ idx) := by omega
      simp only [List.mem_cons]
      constructor
      · rintro (h | h)
        · exact Or.inl h
        · exact Or.inr (Or.inr h)
      · rintro (h | h | h)
        · exact Or.inl h
        · exact absurd h hne
        · exact Or.inr h

/-- C8: `selectDice` by the active participant installs a hold mask of
length five in which exactly the supplied in-range zero-based indices are
held, and changes nothing else: the stored room state differs from the old
one only in `selectedDice`, and the repository is untouched. -/
theorem select_mask_exact (sys : Sys) (gid pid : Nat) (gs : GameState)
    (hroom : sys.getRoom gid = some gs) (hturn : gs.currentPlayerId = pid)
    (idxs : List Int) :
    ∃ m, selectDice sys gid pid idxs =
        ({ sys with rooms := setRoom sys.rooms gid { gs with selectedDice := m } },
         some { gs with selectedDice := m }) ∧
      m.length = 5 ∧
      (∀ j, j < 5 → (m.getD j false = true ↔ (j : Int) ∈ idxs)) := by
  refine ⟨idxs.foldl
      (fun m idx => if 0 ≤ idx ∧ idx < 5 then m.set idx.toNat true else m)
      [false, false, false, false, false], ?_, ?_, ?_⟩
  · simp only [selectDice, hroom]
    rw [if_pos hturn]
  · exact selMask_length idxs [false, false, false, false, false]
  · intro j hj
    rw [selMask_getD idxs [false, false, false, false, false] j rfl hj]
    have hbase : [false, false, false, false, false].getD j false = false := by
      interval_cases j <;> rfl
    rw [hbase]
    simp

/-! ### The turn sequencer (claim C3) -/

/-- Replacing, in a keyed list, every entry whose key matches by a fixed
entry with that key: `find?` then returns the replacement. -/
theorem find?_map_update {α : Type} (key : α → Nat) (k : Nat) (l : List α)
    (a r : α) (hfind : l.find? (fun x => key x = k) = some a) (hr : key r = k) :
    (l.map (fun x => if key x = k then r else x)).find? (fun x => key x = k) =
      some r := by
  obtain ⟨l1, l2, rfl, hl1⟩ := find?_split hfind
  rw [List.map_append, List.find?_append]
  have hnone : ((l1.map (fun x => if key x = k then r else x)).find?
      (fun x => key x = k)) = none := by
    rw [List.find?_eq_none]
    intro x hx
    obtain ⟨y, hy, rfl⟩ := List.mem_map.mp hx
    have hyf := hl1 y hy
    simp only [decide_eq_false_iff_not] at hyf
    simp [if_neg hyf, hyf]
  rw [hnone]
  have ha : key a = k := by simpa using List.find?_some hfind
  simp [ha, hr]

/-- The `updateGame` on a stored game: the row is merged in place. -/
theorem getGame_updateGame (st : Storage) (id : Nat) (u : GameUpd) (g : Game)
    (h : st.getGame id = some g) :
    (st.updateGame id u).1.getGame id = some (g.merge u) ∧
      (st.updateGame id u).2 = some (g.merge u) := by
  have hid : g.id = id := by simpa using List.find?_some h
  unfold Storage.updateGame
  rw [h]
  refine ⟨?_, rfl⟩
  unfold Storage.getGame
  exact find?_map_update Game.id id st.games g (g.merge u) h
    (by simp [Game.merge, hid])

/-- The `updateGame` touches only the games table. -/
theorem updateGame_frame (st : Storage) (id : Nat) (u : GameUpd) :
    (st.updateGame id u).1.players = st.players ∧
    (st.updateGame id u).1.scoreCards = st.scoreCards ∧
    (st.updateGame id u).1.users = st.users ∧
    (st.updateGame id u).1.rounds = st.rounds := by
  unfold Storage.updateGame
  rcases st.getGame id with _ | g <;> exact ⟨rfl, rfl, rfl, rfl⟩

/-- Index of `t` in `range' a N` (with `findIdx?` accumulator `i`). -/
theorem findIdx?_range'_eq (N : Nat) (a t i : Nat) (h1 : a ≤ t)
    (h2 : t < a + N) :
    List.findIdx? (fun x => x = t) (List.range' a N) i = some (i + (t - a)) := by
  induction N generalizing a i with
  | zero => omega
  | succ n ih =>
    rw [List.range'_succ, List.findIdx?_cons]
    by_cases hat : a = t
    · rw [if_pos (by simp [hat])]
      have : t - a = 0 := by omega
      rw [this]
      rfl
    · rw [if_neg (by simp [hat])]
      rw [ih (a + 1) (i + 1) (by omega) (by omega)]
      congr 1
      omega

/-- The `getNextPlayer` over a room whose turn orders are exactly 1..N, from
current order `t`: the player at order `t % N + 1` (wrapping N to 1). -/
theorem getNextPlayer_spec (st : Storage) (gid N t : Nat) (hN : 0 < N)
    (hperm : ((st.playersOf gid).map Player.turnOrder).Perm (List.range' 1 N))
    (ht1 : 1 ≤ t) (htN : t ≤ N) :
    ∃ p, getNextPlayer st gid t = some p ∧ p.turnOrder = t % N + 1 := by
  have hmsper : ((sortBy (fun a b => a.turnOrder ≤ b.turnOrder)
      (st.playersOf gid)).map Player.turnOrder).Perm
      (List.range' 1 N) :=
    ((sortBy_perm _ (st.playersOf gid)).map Player.turnOrder).trans hperm
  have hsorted : List.Pairwise (fun a b : Nat => a ≤ b)
      ((sortBy (fun a b => a.turnOrder ≤ b.turnOrder)
        (st.playersOf gid)).map Player.turnOrder) := by
    rw [List.pairwise_map]
    have hs := sortBy_pairwise
      (fun a b : Player => a.turnOrder ≤ b.turnOrder)
      (fun a b c hab hbc => by
        simp only [decide_eq_true_eq] at hab hbc ⊢
        omega)
      (fun a b => by simp [Nat.le_total])
      (st.playersOf gid)
    exact hs.imp (by simp)
  have hsorted2 : List.Pairwise (fun a b : Nat => a ≤ b) (List.range' 1 N) :=
    (List.pairwise_lt_range' 1 N 1).imp Nat.le_of_lt
  have heq : (sortBy (fun a b => a.turnOrder ≤ b.turnOrder)
      (st.playersOf gid)).map Player.turnOrder =
      List.range' 1 N :=
    List.eq_of_perm_of_sorted hmsper hsorted hsorted2
  have hlen : (sortBy (fun a b => a.turnOrder ≤ b.turnOrder)
      (st.playersOf gid)).length = N := by
    have h2 := congrArg List.length heq
    simpa using h2
  have hidx : (sortBy (fun a b => a.turnOrder ≤ b.turnOrder)
      (st.playersOf gid)).findIdx?
      (fun p => p.turnOrder = t) = some (t - 1) := by
    have hm := List.findIdx?_map (p := fun x : Nat => decide (x = t))
      Player.turnOrder
      (sortBy (fun a b => a.turnOrder ≤ b.turnOrder) (st.playersOf gid))
    rw [heq] at hm
    rw [findIdx?_range'_eq N 1 t 0 (by omega) (by omega)] at hm
    have h0 : (0 : Nat) + (t - 1) = t - 1 := Nat.zero_add _
    rw [h0] at hm
    exact hm.symm
  have htmod : t % N < N := Nat.mod_lt t hN
  have hget := List.getElem?_range' 1 1 htmod
  rw [← heq, List.getElem?_map] at hget
  obtain ⟨q, hmm, hqt⟩ := Option.map_eq_some'.mp hget
  refine ⟨q, ?_, by omega⟩
  simp only [getNextPlayer, hidx]
  rw [hlen]
  have ht' : t - 1 + 1 = t := by omega
  rw [ht']
  exact hmm

/-- Wrapping characterization: for `t` in 1..N, the successor order is 1
exactly when `t = N`. -/
theorem succOrder_eq_one (N t : Nat) (hN : 0 < N) (ht1 : 1 ≤ t)
    (htN : t ≤ N) : (t % N + 1 = 1) ↔ t = N := by
  constructor
  · intro h
    have hmod : t % N = 0 := by omega
    have hdvd : N ∣ t := Nat.dvd_of_mod_eq_zero hmod
    have := Nat.le_of_dvd (by omega) hdvd
    omega
  · rintro rfl
    simp [Nat.mod_self]

/-- The advance block of `scoreCategory`/`passTurn`: the next player
becomes current, and the stored round counter is bumped exactly when the
next player's turn order is 1 (equivalently, `t = N`). -/
theorem advanceTurn_round (st : Storage) (gid N t : Nat) (g : Game)
    (hN : 0 < N)
    (hperm : ((st.playersOf gid).map Player.turnOrder).Perm (List.range' 1 N))
    (ht1 : 1 ≤ t) (htN : t ≤ N) (hg : st.getGame gid = some g) :
    ∃ p, getNextPlayer st gid t = some p ∧ p.turnOrder = t % N + 1 ∧
      ∃ g', (advanceTurn st gid t).getGame gid = some g' ∧
        g'.currentPlayerId = some p.id ∧
        g'.currentRound =
          (if t = N then (if g.currentRound = 0 then 1 else g.currentRound) + 1
           else g.currentRound) := by
  obtain ⟨p, hnext, hord⟩ := getNextPlayer_spec st gid N t hN hperm ht1 htN
  have hwrap : (p.turnOrder = 1) ↔ (t = N) := by
    rw [hord]
    exact succOrder_eq_one N t hN ht1 htN
  simp only [advanceTurn, hnext]
  obtain ⟨hg1get, _⟩ :=
    getGame_updateGame st gid ⟨none, some (some p.id), none⟩ g hg
  by_cases hpt : p.turnOrder = 1
  · rw [if_pos hpt]
    rw [hg1get]
    set g1 := g.merge ⟨none, some (some p.id), none⟩ with hg1
    obtain ⟨hg2get, _⟩ := getGame_updateGame
      ((st.updateGame gid ⟨none, some (some p.id), none⟩).1) gid
      ⟨none, none, some ((if g1.currentRound = 0 then 1 else g1.currentRound) + 1)⟩
      g1 hg1get
    refine ⟨p, rfl, hord, _, hg2get, ?_, ?_⟩
    · simp [Game.merge, hg1]
    · rw [if_pos (hwrap.mp hpt)]
      simp [Game.merge, hg1]
  · rw [if_neg hpt]
    refine ⟨p, rfl, hord, g.merge ⟨none, some (some p.id), none⟩, hg1get, ?_, ?_⟩
    · simp [Game.merge]
    · rw [if_neg (fun h => hpt (hwrap.mpr h))]
      simp [Game.merge]

/-- Closed form of the iterated successor map on 1..N. -/
theorem iter_succOrder (N : Nat) (hN : 0 < N) (s : Nat) (hs1 : 1 ≤ s)
    (hsN : s ≤ N) (k : Nat) :
    (fun t => t % N + 1)^[k] s = (s - 1 + k) % N + 1 := by
  induction k with
  | zero =>
    simp only [Function.iterate_zero, id_eq, Nat.add_zero]
    rw [Nat.mod_eq_of_lt (by omega)]
    omega
  | succ n ih =>
    rw [Function.iterate_succ_apply', ih]
    show ((s - 1 + n) % N + 1) % N + 1 = (s - 1 + (n + 1)) % N + 1
    have hx : s - 1 + (n + 1) = (s - 1 + n) % N + 1 + N * ((s - 1 + n) / N) := by
      have hdm := Nat.div_add_mod (s - 1 + n) N
      omega
    rw [hx, Nat.add_mul_mod_self_left]

/-- C3: in a room whose N participants carry turn orders exactly 1..N,
every advance from order `t` lands on the player at order `t % N + 1`
whose order is 1 exactly on the wrapping advance `t = N`, and the stored
round counter is incremented by the advance block exactly then; the
successor map returns to the start after N advances, and exactly one of
those N advances lands on order 1. -/
theorem turn_sequencer_cycle (st : Storage) (gid N s : Nat) (g : Game)
    (hN : 0 < N)
    (hperm : ((st.playersOf gid).map Player.turnOrder).Perm (List.range' 1 N))
    (hs1 : 1 ≤ s) (hsN : s ≤ N) (hg : st.getGame gid = some g) :
    (∀ t, 1 ≤ t → t ≤ N →
      ∃ p, getNextPlayer st gid t = some p ∧ p.turnOrder = t % N + 1 ∧
        ((p.turnOrder = 1) ↔ t = N) ∧
        ∃ g', (advanceTurn st gid t).getGame gid = some g' ∧
          g'.currentPlayerId = some p.id ∧
          g'.currentRound =
            (if t = N then (if g.currentRound = 0 then 1 else g.currentRound) + 1
             else g.currentRound)) ∧
    (fun t => t % N + 1)^[N] s = s ∧
    (∃! k, k < N ∧ (fun t => t % N + 1)^[k + 1] s = 1) := by
  refine ⟨?_, ?_, ?_⟩
  · intro t ht1 htN
    obtain ⟨p, hnext, hord, g', rest⟩ :=
      advanceTurn_round st gid N t g hN hperm ht1 htN hg
    exact ⟨p, hnext, hord,
      by rw [hord]; exact succOrder_eq_one N t hN ht1 htN, g', rest⟩
  · rw [iter_succOrder N hN s hs1 hsN N]
    have hm : (s - 1 + N) % N = s - 1 := by
      rw [Nat.add_mod_right]
      exact Nat.mod_eq_of_lt (by omega)
    rw [hm]
    omega
  · refine ⟨N - s, ⟨by omega, ?_⟩, ?_⟩
    · rw [iter_succOrder N hN s hs1 hsN (N - s + 1)]
      have hm : s - 1 + (N - s + 1) = N := by omega
      rw [hm, Nat.mod_self]
    · rintro k ⟨hk, hk1⟩
      rw [iter_succOrder N hN s hs1 hsN (k + 1)] at hk1
      have hsk : s - 1 + (k + 1) = s + k := by omega
      rw [hsk] at hk1
      have hmod : (s + k) % N = 0 := by omega
      rcases Nat.lt_or_ge (s + k) N with hlt | hge
      · rw [Nat.mod_eq_of_lt hlt] at hmod
        omega
      · rw [Nat.mod_eq_sub_mod hge] at hmod
        rw [Nat.mod_eq_of_lt (by omega)] at hmod
        omega

/-- Witness for `turn_sequencer_cycle` at N = 3 starting from order 2. -/
theorem turn_sequencer_cycle_witness : (fun t => t % 3 + 1)^[3] 2 = 2 :=
  (turn_sequencer_cycle seqStorage 7 3 2 seqGame (by decide) (by decide)
    (by decide) (by decide) (by decide)).2.1

/-- C1 (bug evaluation): scoring yacht on `[1,2,3,4,5]` records 0; the
next turn resets the dice to `[1,1,1,1,1]`, and a second ScoreCategory
call for yacht is NOT rejected: it succeeds and overwrites the recorded 0
with 50, adding 50 to the cumulative score.  The guard misses the stored
0 because `formatScoreCard` collapses 0 to `undefined` via `|| undefined`. -/
theorem scoreCategory_zero_overwrite :
    ((scoreCategory exSys 1 100 .yacht).1.st.cardOf 100).map ScoreCard.yacht
        = some (some 0) ∧
    (scoreCategory (scoreCategory exSys 1 100 .yacht).1 1 100 .yacht).2.isSome
        = true ∧
    ((scoreCategory (scoreCategory exSys 1 100 .yacht).1 1
        100 .yacht).1.st.cardOf 100).map ScoreCard.yacht = some (some 50) ∧
    ((scoreCategory (scoreCategory exSys 1 100 .yacht).1 1
        100 .yacht).1.st.getPlayer 100).map Player.score = some 50 := by
  decide

/-- C2 (counterexample): a ScoreCategory call on a room whose round
counter exceeds `maxRounds` sets the status to completed although twelve
of the thirteen categories are still empty — completion is NOT "exactly
when every participant's Scorecard has all 13 categories set". -/
theorem completion_by_round_counter :
    ((scoreCategory cexSys 1 100 .chance).2.map GameState.status)
        = some .completed ∧
    (((scoreCategory cexSys 1 100 .chance).1.st.cardOf 100).map allCatsFilled)
        = some false := by
  decide

/-- C9 (bug evaluation): `restartGame` by the host resets status, round
counter, scores, ready flags, and preserves membership/turn order — but
the "fresh" score card is only appended, while `getScoreCardByPlayerId`
still returns the OLD card, so the rebuilt state still shows the old
scores (ones = 3) instead of an empty card. -/
theorem restart_stale_scorecard :
    ((restartGame rstSys 1 10).2.map GameState.status) = some .waiting ∧
    ((restartGame rstSys 1 10).2.map GameState.currentRound) = some 1 ∧
    ((restartGame rstSys 1 10).2.map GameState.currentPlayerId) = some 0 ∧
    ((restartGame rstSys 1 10).2.map
        (fun gs => gs.players.map PlayerState.id)) = some [100] ∧
    ((restartGame rstSys 1 10).2.map
        (fun gs => gs.players.map PlayerState.turnOrder)) = some [1] ∧
    ((restartGame rstSys 1 10).2.map
        (fun gs => gs.players.map PlayerState.score)) = some [0] ∧
    ((restartGame rstSys 1 10).2.map
        (fun gs => gs.players.map PlayerState.isReady)) = some [false] ∧
    ((restartGame rstSys 1 10).2.map
        (fun gs => gs.players.map (fun p => p.scoreCard .ones))) = some [some 3] ∧
    (((restartGame rstSys 1 10).1.st.cardOf 100).map ScoreCard.ones)
        = some (some 3) := by
  decide

/-- C10 (counterexample): starting a room with exactly one participant
succeeds and makes them active, but does NOT mark them ready — both the
rebuilt state and the repository still carry `isReady = false`. -/
theorem start_no_autoready :
    ((startGame stSys 1 10).2.map GameState.status) = some .inProgress ∧
    ((startGame stSys 1 10).2.map GameState.currentPlayerId) = some 100 ∧
    ((startGame stSys 1 10).2.map
        (fun gs => gs.players.map PlayerState.isReady)) = some [false] ∧
    (((startGame stSys 1 10).1.st.getPlayer 100).map Player.isReady)
        = some false := by
  decide

/-- Witness for `reject_foreign`: player 999 is not active in `exSys`. -/
theorem reject_foreign_witness :
    rollDice exSys 1 999 [] RollerResult.failed (fun _ => 0) = (exSys, none) :=
  (reject_foreign exSys 1 999 exRoom rfl (by decide) [] RollerResult.failed
    (fun _ => 0) [] ScoreCategory.yacht).1

/-- Witness for `reroll_allowance` on the concrete room `exSys`. -/
theorem reroll_allowance_witness :
    ∃ s1 gs1 s2 gs2 s3 gs3,
      rollDice exSys 1 100 [] RollerResult.failed (fun _ => 0) = (s1, some gs1) ∧
        gs1.rollsLeft = 2 ∧
      rollDice s1 1 100 [] RollerResult.failed (fun _ => 0) = (s2, some gs2) ∧
        gs2.rollsLeft = 1 ∧
      rollDice s2 1 100 [] RollerResult.failed (fun _ => 0) = (s3, some gs3) ∧
        gs3.rollsLeft = 0 ∧
      rollDice s3 1 100 [] RollerResult.failed (fun _ => 0) = (s3, none) :=
  reroll_allowance exSys 1 100 exRoom rfl (by decide) (by decide)
    [] [] [] [] RollerResult.failed RollerResult.failed RollerResult.failed
    RollerResult.failed (fun _ => 0) (fun _ => 0) (fun _ => 0) (fun _ => 0)

/-- Witness for `dice_invariants` on the concrete room `exSys`. -/
theorem dice_invariants_witness :
    (∀ sel roller rand s' gs',
      rollDice exSys 1 100 sel roller rand = (s', some gs') →
        gs'.currentDice.length = 5 ∧
        (∀ d ∈ gs'.currentDice, 1 ≤ d ∧ d ≤ 6) ∧
        gs'.selectedDice.length = 5 ∧
        (∀ i, i < 5 → sel.getD i false = true →
          gs'.currentDice.getD i 0 = exRoom.currentDice.getD i 0)) ∧
    (∀ idxs s' gs', selectDice exSys 1 100 idxs = (s', some gs') →
        gs'.currentDice = exRoom.currentDice ∧ gs'.selectedDice.length = 5) ∧
    (∀ cat s' gs', scoreCategory exSys 1 100 cat = (s', some gs') →
        gs'.currentDice = [1, 1, 1, 1, 1] ∧
        gs'.selectedDice = [false, false, false, false, false]) ∧
    (∀ s' gs', passTurn exSys 1 100 = (s', some gs') →
        gs'.currentDice = [1, 1, 1, 1, 1] ∧
        gs'.selectedDice = [false, false, false, false, false]) :=
  dice_invariants exSys 1 100 exRoom rfl (by decide) (by decide)

/-- Witness for `select_mask_exact`: holding dice 0 and 2 in `exSys`. -/
theorem select_mask_exact_witness :
    ∃ m, selectDice exSys 1 100 [0, 2] =
        ({ exSys with
            rooms := setRoom exSys.rooms 1 { exRoom with selectedDice := m } },
         some { exRoom with selectedDice := m }) ∧
      m.length = 5 ∧
      (∀ j, j < 5 → (m.getD j false = true ↔ (j : Int) ∈ [(0 : Int), 2])) :=
  select_mask_exact exSys 1 100 exRoom rfl (by decide) [0, 2]

/-! ### Scoring a category and completion (claims C1, C2) -/

/-- In a list with nodup keys, the element found in the middle is the
only one with its key. -/
theorem nodup_middle {α : Type} (key : α → Nat) (l1 l2 : List α) (a : α)
    (hnd : ((l1 ++ a :: l2).map key).Nodup) :
    (∀ x ∈ l1, key x ≠ key a) ∧ ∀ x ∈ l2, key x ≠ key a := by
  rw [List.map_append, List.map_cons] at hnd
  constructor
  · intro x hx hk
    have h1 : key x ∈ l1.map key := List.mem_map_of_mem key hx
    have hdis := List.disjoint_of_nodup_append hnd
    exact hdis (hk ▸ h1) (by simp)
  · have h2 := (List.nodup_append.mp hnd).2.1
    rcases List.nodup_cons.mp h2 with ⟨hnotin, _⟩
    intro x hx hk
    exact hnotin (hk ▸ List.mem_map_of_mem key hx)

/-- The `ScoreCard.put` changes no key column. -/
theorem put_keys (sc : ScoreCard) (c : ScoreCategory) (v : Int) :
    (sc.put c v).id = sc.id ∧ (sc.put c v).playerId = sc.playerId := by
  cases c <;> exact ⟨rfl, rfl⟩

/-- The `putScore` touches only the score-card table. -/
theorem putScore_frame (st : Storage) (pid : Nat) (c : ScoreCategory) (v : Int) :
    (st.putScore pid c v).1.games = st.games ∧
    (st.putScore pid c v).1.players = st.players ∧
    (st.putScore pid c v).1.rounds = st.rounds ∧
    (st.putScore pid c v).1.users = st.users := by
  unfold Storage.putScore
  rcases st.cardOf pid with _ | sc <;> exact ⟨rfl, rfl, rfl, rfl⟩

/-- The `updatePlayer` touches only the players table. -/
theorem updatePlayer_frame (st : Storage) (pid : Nat) (u : PlayerUpd) :
    (st.updatePlayer pid u).1.games = st.games ∧
    (st.updatePlayer pid u).1.scoreCards = st.scoreCards ∧
    (st.updatePlayer pid u).1.rounds = st.rounds ∧
    (st.updatePlayer pid u).1.users = st.users := by
  unfold Storage.updatePlayer
  rcases st.getPlayer pid with _ | p <;> exact ⟨rfl, rfl, rfl, rfl⟩

/-- The `updateRound` touches only the rounds table. -/
theorem updateRound_frame (st : Storage) (id : Nat) (c : ScoreCategory)
    (v : Int) :
    (st.updateRound id c v).games = st.games ∧
    (st.updateRound id c v).players = st.players ∧
    (st.updateRound id c v).scoreCards = st.scoreCards ∧
    (st.updateRound id c v).users = st.users :=
  ⟨rfl, rfl, rfl, rfl⟩

/-- After `putScore`, the first card of the scoring player carries the new
column and every other player's first card is unchanged (distinct card
ids). -/
theorem cardOf_putScore (st : Storage) (pid : Nat) (c : ScoreCategory)
    (v : Int) (sc : ScoreCard)
    (hnd : (st.scoreCards.map ScoreCard.id).Nodup)
    (hcard : st.cardOf pid = some sc) :
    ∀ r, (st.putScore pid c v).1.cardOf r
      = if r = pid then some (sc.put c v) else st.cardOf r := by
  intro r
  have hpidsc : sc.playerId = pid := by simpa using List.find?_some hcard
  obtain ⟨l1, l2, hsplit, hl1⟩ := find?_split hcard
  obtain ⟨hid1, hid2⟩ := nodup_middle ScoreCard.id l1 l2 sc (hsplit ▸ hnd)
  simp only [Storage.putScore, hcard]
  have hmap : st.scoreCards.map
      (fun x => if x.id = sc.id then sc.put c v else x)
      = l1 ++ sc.put c v :: l2 := by
    rw [hsplit, List.map_append, List.map_cons]
    have e1 : l1.map (fun x => if x.id = sc.id then sc.put c v else x) = l1 := by
      rw [List.map_congr_left (fun x hx => if_neg (hid1 x hx))]
      exact List.map_id l1
    have e2 : l2.map (fun x => if x.id = sc.id then sc.put c v else x) = l2 := by
      rw [List.map_congr_left (fun x hx => if_neg (hid2 x hx))]
      exact List.map_id l2
    rw [e1, e2, if_pos rfl]
  unfold Storage.cardOf
  simp only []
  rw [hmap]
  by_cases hr : r = pid
  · subst hr
    rw [if_pos rfl, List.find?_append]
    have hn : l1.find? (fun x => x.playerId = r) = none := by
      rw [List.find?_eq_none]
      intro x hx
      simpa using hl1 x hx
    rw [hn]
    simp [List.find?_cons, (put_keys sc c v).2, hpidsc]
  · rw [if_neg hr, hsplit, List.find?_append, List.find?_append]
    have hmid1 : List.find? (fun x => x.playerId = r) (sc.put c v :: l2)
        = List.find? (fun x => x.playerId = r) l2 := by
      rw [List.find?_cons]
      have : ((sc.put c v).playerId = r) = False := by
        rw [(put_keys sc c v).2, hpidsc]
        simp [Ne.symm, hr]
      simp [this]
    have hmid2 : List.find? (fun x => x.playerId = r) (sc :: l2)
        = List.find? (fun x => x.playerId = r) l2 := by
      rw [List.find?_cons]
      have : (sc.playerId = r) = False := by
        rw [hpidsc]
        exact eq_false (fun h => hr h.symm)
      simp [this]
    rw [hmid1, hmid2]

/-- With nodup player ids, `updatePlayer` is the pointwise merge at the
matching id. -/
theorem updatePlayer_players (st : Storage) (pid : Nat) (u : PlayerUpd)
    (q : Player) (hnd : (st.players.map Player.id).Nodup)
    (hq : st.getPlayer pid = some q) :
    (st.updatePlayer pid u).1.players
      = st.players.map (fun x => if x.id = pid then x.merge u else x) := by
  obtain ⟨l1, l2, hsplit, _⟩ := find?_split hq
  obtain ⟨hid1, hid2⟩ := nodup_middle Player.id l1 l2 q (hsplit ▸ hnd)
  have hqid : q.id = pid := by simpa using List.find?_some hq
  simp only [Storage.updatePlayer, hq]
  refine List.map_congr_left (fun x hx => ?_)
  by_cases hxid : x.id = pid
  · have hxq : x = q := by
      rw [hsplit] at hx
      rcases List.mem_append.mp hx with h | h
      · exact absurd (hqid ▸ hxid) (hid1 x h)
      · rcases List.mem_cons.mp h with rfl | h2
        · rfl
        · exact absurd (hqid ▸ hxid) (hid2 x h2)
    rw [if_pos hxid, if_pos hxid, hxq]
  · rw [if_neg hxid, if_neg hxid]

/-- The `Player.merge` changes no key column. -/
theorem merge_keys (p : Player) (u : PlayerUpd) :
    (p.merge u).id = p.id ∧ (p.merge u).gameId = p.gameId ∧
    (p.merge u).turnOrder = p.turnOrder :=
  ⟨rfl, rfl, rfl⟩

/-- Completion check over a storage whose players differ from `st`'s only
by a merge at `pid` and whose cards differ only by the freshly written
card of `pid`: it holds exactly when the round counter has passed the
total or every participant's (effective) card is fully set. -/
theorem checkGameCompletion_iff (stA st : Storage) (gid pid : Nat) (g : Game)
    (sc2 : ScoreCard) (u : PlayerUpd)
    (hgA : stA.getGame gid = some g)
    (hpA : stA.playersOf gid = (st.playersOf gid).map
      (fun x => if x.id = pid then x.merge u else x))
    (hcA : ∀ r, stA.cardOf r = if r = pid then some sc2 else st.cardOf r)
    (hne : st.playersOf gid ≠ []) :
    (checkGameCompletion stA gid = true ↔
      ((if g.maxRounds = 0 then 12 else g.maxRounds) <
         (if g.currentRound = 0 then 1 else g.currentRound) ∨
       ∀ p ∈ st.playersOf gid, ∀ sc',
         (if p.id = pid then some sc2 else st.cardOf p.id) = some sc' →
           allCatsFilled sc' = true)) := by
  simp only [checkGameCompletion, hgA, hpA]
  have hempty : ((st.playersOf gid).map
      (fun x => if x.id = pid then x.merge u else x)).isEmpty = false := by
    rcases hsp : st.playersOf gid with _ | ⟨p0, ps⟩
    · exact absurd hsp hne
    · rfl
  rw [hempty]
  simp only [Bool.false_eq_true, if_neg, ite_false]
  by_cases hlt : (if g.maxRounds = 0 then 12 else g.maxRounds) <
      (if g.currentRound = 0 then 1 else g.currentRound)
  · rw [if_pos hlt]
    simp [hlt]
  · rw [if_neg hlt]
    rw [List.all_map, List.all_eq_true]
    constructor
    · intro h
      refine Or.inr (fun p hp sc' hsc' => ?_)
      have h2 := h p hp
      simp only [Function.comp] at h2
      have hid : (if p.id = pid then p.merge u else p).id = p.id := by
        split <;> rfl
      rw [hid, hcA p.id] at h2
      rw [hsc'] at h2
      exact h2
    · rintro (h | h)
      · exact absurd h hlt
      · intro p hp
        simp only [Function.comp]
        have hid : (if p.id = pid then p.merge u else p).id = p.id := by
          split <;> rfl
        rw [hid, hcA p.id]
        rcases ho : (if p.id = pid then some sc2 else st.cardOf p.id) with _ | sc'
        · rfl
        · exact h p hp sc' ho

/-- The advance block never changes the stored game's status (nor breaks
its presence). -/
theorem advanceTurn_status (st : Storage) (gid t : Nat) (g : Game)
    (hg : st.getGame gid = some g) :
    ∃ g', (advanceTurn st gid t).getGame gid = some g' ∧
      g'.status = g.status := by
  simp only [advanceTurn]
  rcases getNextPlayer st gid t with _ | np
  · exact ⟨g, hg, rfl⟩
  · simp only []
    obtain ⟨hg1, _⟩ :=
      getGame_updateGame st gid ⟨none, some (some np.id), none⟩ g hg
    by_cases hnp : np.turnOrder = 1
    · rw [if_pos hnp, hg1]
      obtain ⟨hg2, _⟩ := getGame_updateGame _ gid _ _ hg1
      exact ⟨_, hg2, rfl⟩
    · rw [if_neg hnp]
      exact ⟨_, hg1, rfl⟩

/-- C2 (amended): a ScoreCategory call that passes all guards succeeds,
and the room's status becomes `completed` exactly when, after the score is
recorded, the round counter has passed `maxRounds` OR every participant's
score card (including the one just written) has all 13 categories set —
not only in the all-cards-set case. -/
theorem scoreCategory_completed_iff (sys : Sys) (gid pid : Nat)
    (gs : GameState) (player : PlayerState) (cat : ScoreCategory)
    (g : Game) (q : Player) (sc : ScoreCard)
    (hroom : sys.getRoom gid = some gs)
    (hturn : gs.currentPlayerId = pid)
    (hfind : gs.players.find? (fun p => p.id = pid) = some player)
    (hopen : player.scoreCard cat = none)
    (hg : sys.st.getGame gid = some g)
    (hstat : g.status ≠ GStatus.completed)
    (hq : sys.st.getPlayer pid = some q)
    (hqgid : q.gameId = gid)
    (hcard : sys.st.cardOf pid = some sc)
    (hndp : (sys.st.players.map Player.id).Nodup)
    (hnds : (sys.st.scoreCards.map ScoreCard.id).Nodup) :
    ∃ s' gs', scoreCategory sys gid pid cat = (s', some gs') ∧
      (gs'.status = GStatus.completed ↔
        ((if g.maxRounds = 0 then 12 else g.maxRounds) <
           (if g.currentRound = 0 then 1 else g.currentRound) ∨
         ∀ p ∈ sys.st.playersOf gid, ∀ sc',
           (if p.id = pid
            then some (sc.put cat (calculateScore gs.currentDice cat))
            else sys.st.cardOf p.id) = some sc' →
             allCatsFilled sc' = true)) := by
  simp only [scoreCategory, hroom]
  rw [if_pos hturn]
  simp only [hfind]
  rw [if_neg (by simp [hopen])]
  set v := calculateScore gs.currentDice cat with hv
  set st1 := (sys.st.putScore pid cat v).1 with hst1
  obtain ⟨hf1g, hf1p, hf1r, hf1u⟩ := putScore_frame sys.st pid cat v
  have hcards1 := cardOf_putScore sys.st pid cat v sc hnds hcard
  have hq1 : st1.getPlayer pid = some q := by
    unfold Storage.getPlayer at hq ⊢
    rw [hf1p]
    exact hq
  have hnd1 : (st1.players.map Player.id).Nodup := by
    rw [hf1p]
    exact hndp
  set u : PlayerUpd := ⟨some (player.score + v), none, none⟩ with hu
  have hupd2 : (st1.updatePlayer pid u).2 = some (q.merge u) := by
    simp only [Storage.updatePlayer, hq1]
  set st2 := (st1.updatePlayer pid u).1 with hst2
  have hp2 : st2.players
      = st1.players.map (fun x => if x.id = pid then x.merge u else x) :=
    updatePlayer_players st1 pid u q hnd1 hq1
  obtain ⟨hf2g, hf2s, hf2r, hf2u⟩ := updatePlayer_frame st1 pid u
  rw [hupd2]
  simp only []
  generalize hst3 :
    (match (sortBy (fun a b => b.id ≤ a.id) (st2.roundsOf pid)).head? with
     | some lastRound => st2.updateRound lastRound.id cat v
     | none => st2) = st3
  have hframes3 : st3.games = st2.games ∧ st3.players = st2.players ∧
      st3.scoreCards = st2.scoreCards := by
    rcases hhd : (sortBy (fun a b => b.id ≤ a.id) (st2.roundsOf pid)).head?
      with _ | r0
    · rw [← hst3, hhd]
      exact ⟨rfl, rfl, rfl⟩
    · rw [← hst3, hhd]
      obtain ⟨h1, h2, h3, _⟩ := updateRound_frame st2 r0.id cat v
      exact ⟨h1, h2, h3⟩
  obtain ⟨h3g, h3p, h3s⟩ := hframes3
  have hg3 : st3.getGame gid = some g := by
    have hgames : st3.games = sys.st.games := by
      rw [h3g, hst2, (updatePlayer_frame st1 pid u).1]
      exact hf1g
    unfold Storage.getGame
    rw [hgames]
    exact hg
  have hp3 : st3.playersOf gid = (sys.st.playersOf gid).map
      (fun x => if x.id = pid then x.merge u else x) := by
    unfold Storage.playersOf
    rw [h3p, hp2, hf1p]
    rw [List.filter_map]
    congr 1
    refine List.filter_congr ?_
    intro x hx
    simp only [Function.comp]
    have hgi : (if x.id = pid then x.merge u else x).gameId = x.gameId := by
      split <;> rfl
    rw [hgi]
  have hc3 : ∀ r, st3.cardOf r
      = if r = pid then some (sc.put cat v) else sys.st.cardOf r := by
    intro r
    have hsc3 : st3.scoreCards = st1.scoreCards := by
      rw [h3s, hst2, (updatePlayer_frame st1 pid u).2.1]
    unfold Storage.cardOf
    unfold Storage.cardOf at hcards1
    rw [hsc3]
    exact hcards1 r
  have hne : sys.st.playersOf gid ≠ [] := by
    have hmem : q ∈ sys.st.playersOf gid := by
      unfold Storage.playersOf
      exact List.mem_filter.mpr
        ⟨List.mem_of_find?_eq_some hq, by simp [hqgid]⟩
    exact List.ne_nil_of_mem hmem
  have hiff := checkGameCompletion_iff st3 sys.st gid pid g (sc.put cat v) u
    hg3 hp3 hc3 hne
  by_cases hcc : checkGameCompletion st3 gid = true
  · rw [if_pos hcc]
    obtain ⟨hg4, _⟩ :=
      getGame_updateGame st3 gid ⟨some GStatus.completed, none, none⟩ g hg3
    simp only [hg4]
    refine ⟨_, _, rfl, ?_⟩
    exact iff_of_true rfl (hiff.mp hcc)
  · rw [if_neg hcc]
    obtain ⟨g', hg4', hstat'⟩ :=
      advanceTurn_status st3 gid player.turnOrder g hg3
    simp only [hg4']
    refine ⟨_, _, rfl, ?_⟩
    refine iff_of_false ?_ (fun hP => hcc (hiff.mpr hP))
    show g'.status = GStatus.completed → False
    rw [hstat']
    exact hstat

/-- Witness for `scoreCategory_completed_iff`: scoring chance in `exSys`. -/
theorem scoreCategory_completed_iff_witness :
    ∃ s' gs', scoreCategory exSys 1 100 ScoreCategory.chance = (s', some gs') ∧
      (gs'.status = GStatus.completed ↔
        ((if exGame.maxRounds = 0 then 12 else exGame.maxRounds) <
           (if exGame.currentRound = 0 then 1 else exGame.currentRound) ∨
         ∀ p ∈ exSys.st.playersOf 1, ∀ sc',
           (if p.id = 100
            then some ((emptyScoreCard 1 100 1).put ScoreCategory.chance
              (calculateScore exRoom.currentDice ScoreCategory.chance))
            else exSys.st.cardOf p.id) = some sc' →
             allCatsFilled sc' = true)) :=
  scoreCategory_completed_iff exSys 1 100 exRoom
    (toPlayerState exStorage exGame exPlayer) ScoreCategory.chance exGame
    exPlayer (emptyScoreCard 1 100 1) rfl rfl rfl rfl rfl (by decide) rfl rfl
    rfl (by decide) (by decide)

/-! ### Starting a room (claim C10) -/

/-- C10 (amended): `startGame` is rejected (no state change) unless the
requester is the host, and when the room has zero participants; with
exactly one participant it succeeds, makes that participant the current
player and the room `in_progress`, and leaves the participant's ready
flag exactly as it was — it is NOT auto-marked ready. -/
theorem startGame_spec (sys : Sys) (gid req : Nat) (g : Game)
    (hg : sys.st.getGame gid = some g) :
    (g.hostId ≠ req → startGame sys gid req = (sys, none)) ∧
    (sys.st.playersOf gid = [] → startGame sys gid req = (sys, none)) ∧
    (∀ p, sys.st.playersOf gid = [p] → g.hostId = req →
      p.userId ∈ sys.st.users →
      ∃ s' gs', startGame sys gid req = (s', some gs') ∧
        gs'.status = GStatus.inProgress ∧
        gs'.currentPlayerId = p.id ∧
        s'.st.players = sys.st.players ∧
        gs'.players.map PlayerState.isReady = [p.isReady] ∧
        gs'.players.map PlayerState.isCurrentTurn = [true]) := by
  have hgid : g.id = gid := by simpa using List.find?_some hg
  refine ⟨?_, ?_, ?_⟩
  · intro hne
    simp only [startGame, hg]
    rw [if_neg hne]
  · intro hempty
    simp only [startGame, hg]
    by_cases hh : g.hostId = req
    · rw [if_pos hh, hempty]
      rfl
    · rw [if_neg hh]
  · intro p hp hh hu
    simp only [startGame, hg]
    rw [if_pos hh, hp]
    rw [if_neg (by simp)]
    simp only [show sortBy (fun a b : Player => a.turnOrder ≤ b.turnOrder) [p]
      = [p] from rfl]
    obtain ⟨hug_get, hug2⟩ := getGame_updateGame sys.st gid
      ⟨some GStatus.inProgress, some (some p.id), none⟩ g hg
    simp only [hug2]
    obtain ⟨hfp, hfs, hfu, hfr⟩ := updateGame_frame sys.st gid
      ⟨some GStatus.inProgress, some (some p.id), none⟩
    refine ⟨_, _, rfl, rfl, rfl, hfp, ?_, ?_⟩
    · have e1 : ((sys.st.updateGame gid
          ⟨some GStatus.inProgress, some (some p.id), none⟩).1).playersOf
          (g.merge ⟨some GStatus.inProgress, some (some p.id), none⟩).id
          = [p] := by
        unfold Storage.playersOf
        rw [hfp]
        have : (g.merge ⟨some GStatus.inProgress, some (some p.id), none⟩).id
            = gid := hgid
        rw [this]
        exact hp
      simp only [Sys.initGS, initGameState, e1]
      have e2 : [p].filter (fun x =>
          ((sys.st.updateGame gid
            ⟨some GStatus.inProgress, some (some p.id), none⟩).1).users.contains
            x.userId) = [p] := by
        rw [hfu]
        simp [List.filter, hu]
      rw [e2]
      rfl
    · have e1 : ((sys.st.updateGame gid
          ⟨some GStatus.inProgress, some (some p.id), none⟩).1).playersOf
          (g.merge ⟨some GStatus.inProgress, some (some p.id), none⟩).id
          = [p] := by
        unfold Storage.playersOf
        rw [hfp]
        have : (g.merge ⟨some GStatus.inProgress, some (some p.id), none⟩).id
            = gid := hgid
        rw [this]
        exact hp
      simp only [Sys.initGS, initGameState, e1]
      have e2 : [p].filter (fun x =>
          ((sys.st.updateGame gid
            ⟨some GStatus.inProgress, some (some p.id), none⟩).1).users.contains
            x.userId) = [p] := by
        rw [hfu]
        simp [List.filter, hu]
      rw [e2]
      simp [toPlayerState, Game.merge]

/-- Witness for `startGame_spec` on the concrete waiting room `stSys`. -/
theorem startGame_spec_witness :
    (stGame.hostId ≠ 10 → startGame stSys 1 10 = (stSys, none)) ∧
    (stSys.st.playersOf 1 = [] → startGame stSys 1 10 = (stSys, none)) ∧
    (∀ p, stSys.st.playersOf 1 = [p] → stGame.hostId = 10 →
      p.userId ∈ stSys.st.users →
      ∃ s' gs', startGame stSys 1 10 = (s', some gs') ∧
        gs'.status = GStatus.inProgress ∧
        gs'.currentPlayerId = p.id ∧
        s'.st.players = stSys.st.players ∧
        gs'.players.map PlayerState.isReady = [p.isReady] ∧
        gs'.players.map PlayerState.isCurrentTurn = [true]) :=
  startGame_spec stSys 1 10 stGame rfl
